import Mathlib

/-!
# cppref: the open-addressing `unordered_map` of `include/rh_unordered_map.h`

A shallow embedding of the header and of the driver `src/main.cpp`, followed by
theorems about it.

Conventions of the embedding.

* A `std::string` key is the list of its bytes, a byte is a `Fin 256`.
* `std::size_t` and `std::uint32_t` values are natural numbers; the 32-bit
  arithmetic of `adler32` is reduced modulo `2 ^ 32` where the source computes
  it.
* An operation whose behaviour the language leaves undefined stops with a
  `Fault`: an integer `%` with divisor zero, a read through the null `ctrl`
  pointer, a read outside an array.  A loop carries a fuel argument and stops
  with `Fault.noFuel` when it is used up.
* The two arrays are lists; `ctrl` is `none` while the `std::unique_ptr` is
  null.
-/

set_option linter.unusedVariables false

namespace cppref

/-! ## Values -/

/-- One byte of a key, a `uint8_t`. -/
abbrev Byte := Fin 256

/-- The type `key_t = std::string`, as the sequence of its bytes. -/
abbrev key_t := List Byte

/-- The type `value_t = int`. -/
abbrev value_t := Int

/-- The ways an operation can leave defined behaviour, and the exhaustion of
the fuel of a loop. -/
inductive Fault where
  | modByZero
  | nullCtrl
  | outOfBounds
  | noFuel
  deriving DecidableEq, Repr

/-- The outcome of running a piece of the program. -/
abbrev Outcome (α : Type) := Except Fault α

/-- The bytes of a string literal of the driver (all of them are ASCII). -/
def str (s : String) : key_t := s.data.map (fun c => Fin.ofNat c.toNat)

/-! ## Hash function and hash splitter (anonymous namespace) -/

/-- The constant `MOD_ADLER`. -/
def MOD_ADLER : Nat := 65521

/-- Reduction of a `std::uint32_t` result. -/
def wrap32 (n : Nat) : Nat := n % 2 ^ 32

/-- One turn of the `while` loop of `adler32`, on the pair `(a, b)`. -/
def adler32_step (ab : Nat × Nat) (byte : Byte) : Nat × Nat :=
  let a := wrap32 (ab.1 + byte.val) % MOD_ADLER
  let b := wrap32 (ab.2 + a) % MOD_ADLER
  (a, b)

/-- The function `adler32(bytes, len)`: `a = 1, b = 0`, the loop over the
bytes, and `(b << 16) | a`. -/
def adler32 (bytes : List Byte) : Nat :=
  let ab := bytes.foldl adler32_step (1, 0)
  wrap32 (ab.2 <<< 16) ||| ab.1

/-- The function `hash(bytes, len)`: the `adler32` digest widened to
`std::size_t`. -/
def hash (bytes : List Byte) : Nat := adler32 bytes

/-- The function `to_index(hash, bucket_size) = (hash >> 7) % bucket_size`. -/
def to_index (hash bucket_size : Nat) : Outcome Nat :=
  if bucket_size = 0 then .error .modByZero
  else .ok ((hash >>> 7) % bucket_size)

/-- The function `to_metadata(hash) = hash & 0x7F`. -/
def to_metadata (hash : Nat) : Nat := hash &&& 0x7F

/-- The function `linear_probe_next(index, bucket_size)
= (index + 1) % bucket_size`. -/
def linear_probe_next (index bucket_size : Nat) : Outcome Nat :=
  if bucket_size = 0 then .error .modByZero
  else .ok ((index + 1) % bucket_size)

/-- The enumeration `Control`. -/
inductive Control where
  | KeyEmpty
  | KeyDelete
  | KeySentinel
  deriving DecidableEq, Repr

/-- The enumerator values of `Control`. -/
def Control.toNat : Control → Nat
  | .KeyEmpty => 0b10000000
  | .KeyDelete => 0b11111110
  | .KeySentinel => 0b11111111

/-! ## `insert_impl` -/

/-- The `for` loop of `insert_impl`, from position `index`.

`state` is `ctrl[index]` and `bucket` is `buckets[index]`.  The source declares
`auto bucket = buckets[index];`, a copy of the slot, so the assignments to
`bucket.first` and `bucket.second` in both branches change that local copy and
nothing the caller can see; the loop writes no element of `ctrl`.  What is left
of a call is the `bool` it returns: `true` from the branch
`state == metadata && key == bucket`, `false` from the branch
`state == Control::KeyEmpty`.  The comparison `key == bucket` is read as the
comparison with the key of the slot. -/
def insert_impl_loop (key : key_t) (value : value_t) (metadata : Nat)
    (ctrl : Option (List Nat)) (buckets : List (key_t × value_t)) (size : Nat) :
    Nat → Nat → Outcome Bool
  | 0, _ => .error .noFuel
  | fuel + 1, index =>
    match ctrl with
    | none => .error .nullCtrl
    | some bytes =>
      match bytes[index]?, buckets[index]? with
      | some state, some bucket =>
        if state = metadata ∧ key = bucket.1 then .ok true
        else if state = Control.KeyEmpty.toNat then .ok false
        else
          match linear_probe_next index size with
          | .error e => .error e
          | .ok next => insert_impl_loop key value metadata ctrl buckets size fuel next
      | _, _ => .error .outOfBounds

/-- The function `insert_impl(key, value, buckets, bucket_size)`.  The name
`ctrl` its body reads is the member of the table, passed here explicitly. -/
def insert_impl (fuel : Nat) (key : key_t) (value : value_t)
    (ctrl : Option (List Nat)) (buckets : List (key_t × value_t))
    (bucket_size : Nat) : Outcome Bool :=
  let size := bucket_size
  let h := hash key
  let metadata := to_metadata h
  match to_index h size with
  | .error e => .error e
  | .ok index => insert_impl_loop key value metadata ctrl buckets size fuel index

/-! ## The class `unordered_map` -/

/-- The constant `load_factor = 0.875`, as the fraction `7 / 8`. -/
def load_factor : Nat × Nat := (7, 8)

/-- The constant `default_table_size`. -/
def default_table_size : Nat := 10

/-- The data members of `unordered_map`. -/
structure unordered_map where
  buckets : List (key_t × value_t)
  ctrl : Option (List Nat)
  bucket_size : Nat
  count : Nat
  deriving DecidableEq, Repr

/-- The test `1.0 * count / bucket_size > load_factor` of `insert`.

For a positive `bucket_size` the quotient exceeds `7 / 8` exactly when
`8 * count > 7 * bucket_size` (the rounding of the division cannot change the
comparison with `0.875` for sizes below `2 ^ 51`).  With `bucket_size = 0` the
quotient is `0.0 / 0.0`, a NaN, for which `>` is false, when `count = 0`, and
`+inf` otherwise. -/
def over_load_factor (count bucket_size : Nat) : Bool :=
  if bucket_size = 0 then decide (0 < count)
  else decide (load_factor.1 * bucket_size < load_factor.2 * count)

namespace unordered_map

/-- The constructor `unordered_map()`: `buckets` gets `default_table_size`
value-initialised pairs, `ctrl` stays the null pointer, `bucket_size` and
`count` keep their default member initialisers `0`. -/
def init : unordered_map :=
  { buckets := List.replicate default_table_size ([], 0)
    ctrl := none
    bucket_size := 0
    count := 0 }

/-- The `while` loop of `rehash`: `remaining` slots are still to be visited
and `cursor` is the position of the next one.  The result of `insert_impl` is
dropped, and `insert_impl` writes neither `new_bucket` nor `ctrl`. -/
def rehash_loop (fuel : Nat) (ctrl : Option (List Nat))
    (buckets new_bucket : List (key_t × value_t)) (new_size : Nat) :
    Nat → Nat → Outcome Unit
  | 0, _ => .ok ()
  | remaining + 1, cursor =>
    match buckets[cursor]? with
    | none => .error .outOfBounds
    | some slot =>
      if slot.1 ≠ [] then
        match insert_impl fuel slot.1 slot.2 ctrl new_bucket new_size with
        | .error e => .error e
        | .ok _ => rehash_loop fuel ctrl buckets new_bucket new_size remaining (cursor + 1)
      else rehash_loop fuel ctrl buckets new_bucket new_size remaining (cursor + 1)

/-- The member `rehash(new_size)`: a new array of `new_size` value-initialised
pairs, the loop over the old slots, then `buckets.swap(new_bucket)` and
`bucket_size = new_size`.  No new `ctrl` is allocated. -/
def rehash (fuel : Nat) (t : unordered_map) (new_size : Nat) : Outcome unordered_map :=
  let new_bucket : List (key_t × value_t) := List.replicate new_size ([], 0)
  match rehash_loop fuel t.ctrl t.buckets new_bucket new_size t.bucket_size 0 with
  | .error e => .error e
  | .ok _ => .ok { t with buckets := new_bucket, bucket_size := new_size }

/-- The member `insert(kv)`: the load-factor test with `rehash(bucket_size << 1)`,
then `count += insert_impl(...)`. -/
def insert (fuel : Nat) (t : unordered_map) (kv : key_t × value_t) : Outcome unordered_map :=
  match (if over_load_factor t.count t.bucket_size
          then rehash fuel t (t.bucket_size <<< 1) else .ok t) with
  | .error e => .error e
  | .ok t1 =>
    match insert_impl fuel kv.1 kv.2 t1.ctrl t1.buckets t1.bucket_size with
    | .error e => .error e
    | .ok updated => .ok { t1 with count := t1.count + (if updated then 1 else 0) }

/-- The `for` loop of `find`, from position `index`: a slot whose key equals
`key` ends it with the value, a slot whose key is the empty string ends it
with the empty optional. -/
def find_loop (key : key_t) (buckets : List (key_t × value_t)) (size : Nat) :
    Nat → Nat → Outcome (Option value_t)
  | 0, _ => .error .noFuel
  | fuel + 1, index =>
    match buckets[index]? with
    | none => .error .outOfBounds
    | some bucket =>
      if bucket.1 = key then .ok (some bucket.2)
      else if bucket.1 = [] then .ok none
      else
        match linear_probe_next index size with
        | .error e => .error e
        | .ok next => find_loop key buckets size fuel next

/-- The member `find(key)`.  The start `to_index(key.data(), key.size(), size)`
is read as `to_index(hash(key.data(), key.size()), size)`. -/
def find (fuel : Nat) (t : unordered_map) (key : key_t) : Outcome (Option value_t) :=
  let size := t.bucket_size
  match to_index (hash key) size with
  | .error e => .error e
  | .ok index => find_loop key t.buckets size fuel index

/-- A run of `insert` calls in order, as in the loop of `main`. -/
def insert_all (fuel : Nat) : unordered_map → List (key_t × value_t) → Outcome unordered_map
  | t, [] => .ok t
  | t, kv :: rest =>
    match insert fuel t kv with
    | .error e => .error e
    | .ok t1 => insert_all fuel t1 rest

end unordered_map

/-- The tables that a finite run of `insert` calls produces from the freshly
constructed one. -/
inductive Reachable : unordered_map → Prop where
  | init : Reachable unordered_map.init
  | insert {t t1 : unordered_map} (fuel : Nat) (kv : key_t × value_t) :
      Reachable t → t.insert fuel kv = .ok t1 → Reachable t1

/-! ## The driver `src/main.cpp` -/

/-- The function `create_dummy_data()`. -/
def create_dummy_data : List (key_t × value_t) :=
  [ (str "Hello, World!", 1),
    (str "foo", 2),
    (str "bar", 4),
    (str "spam", 5),
    (str "bacon", 6),
    (str "eggs", 7),
    (str "Goodbye, World!", 8),
    (str "Modern C++ is awesome", 9),
    (str "Modern Effective C++ is awesome", 11),
    (str "Twitch TV", 13),
    (str "Afreeca TV", 15),
    (str "Youtube", 20) ]

/-- The table of `main` after its loop `for (const auto& d : data) cache.insert(d);`. -/
def main_cache (fuel : Nat) : Outcome unordered_map :=
  unordered_map.init.insert_all fuel create_dummy_data

/-! ## The probe sequence -/

/-- The positions that the header `for (auto index = to_index(h, size);;
index = linear_probe_next(index, size))` of the probe loops of `insert_impl`
and `find` visits: `probe h size j` is the value of `index` after `j` steps. -/
def probe (h size : Nat) : Nat → Outcome Nat
  | 0 => to_index h size
  | j + 1 =>
    match probe h size j with
    | .error e => .error e
    | .ok index => linear_probe_next index size

/-! ## The lookup of the header comment -/

/-- The function `H1` of the header comment: `hash >> 7`. -/
def H1 (hash : Nat) : Nat := hash >>> 7

/-- The function `H2` of the header comment: `hash & 0x7F`. -/
def H2 (hash : Nat) : Nat := hash &&& 0x7F

/-- The `while (true)` loop of the `find` written in the header comment, from
position `pos`: `iterator_at(pos)` where `H2(hash) == ctrl[pos]` and the key
equals the key of `slots[pos]`, `end()` where `ctrl[pos] == kEmpty`, else
`pos = (pos + 1) % size`.  The result is the position of the iterator, `none`
for `end()`. -/
def documented_find_loop (key : key_t) (hash : Nat) (ctrl : Option (List Nat))
    (slots : List (key_t × value_t)) (size : Nat) : Nat → Nat → Outcome (Option Nat)
  | 0, _ => .error .noFuel
  | fuel + 1, pos =>
    match ctrl with
    | none => .error .nullCtrl
    | some bytes =>
      match bytes[pos]? with
      | none => .error .outOfBounds
      | some state =>
        match (if H2 hash = state then slots[pos]?.map (fun slot => decide (key = slot.1))
               else some false) with
        | none => .error .outOfBounds
        | some true => .ok (some pos)
        | some false =>
          if state = Control.KeyEmpty.toNat then .ok none
          else if size = 0 then .error .modByZero
          else documented_find_loop key hash ctrl slots size fuel ((pos + 1) % size)

/-- The `find(key, hash)` written in the header comment, on the arrays of a
table: `pos = H1(hash) % size`, then the loop. -/
def documented_find (fuel : Nat) (t : unordered_map) (key : key_t) (hash : Nat) :
    Outcome (Option Nat) :=
  if t.bucket_size = 0 then .error .modByZero
  else documented_find_loop key hash t.ctrl t.buckets t.bucket_size fuel
    (H1 hash % t.bucket_size)

/-- The documented `find` as a lookup: the hash is `hash(key)` and the iterator
is read through, to the value of the slot it points at, `none` for `end()`. -/
def documented_lookup (fuel : Nat) (t : unordered_map) (key : key_t) :
    Outcome (Option value_t) :=
  match documented_find fuel t key (hash key) with
  | .error e => .error e
  | .ok none => .ok none
  | .ok (some pos) =>
    match t.buckets[pos]? with
    | none => .error .outOfBounds
    | some slot => .ok (some slot.2)

/-! ## The checksum as the specification words it -/

/-- The two accumulators of the specification: `a` starts at `1`, `b` at `0`,
and for each byte `a = (a + byte) mod M`, `b = (b + a) mod M` with
`M = 65521`, over unbounded integers. -/
def spec_sums : List Byte → Nat × Nat
  | bytes => bytes.foldl (fun ab byte =>
      ((ab.1 + byte.val) % 65521, (ab.2 + (ab.1 + byte.val) % 65521) % 65521)) (1, 0)

/-- The digest of the specification: `(b << 16) | a`. -/
def spec_digest (bytes : List Byte) : Nat :=
  ((spec_sums bytes).2 <<< 16) ||| (spec_sums bytes).1

/-! ## Observations on a table -/

/-- The pairs held in the slots that `rehash` and `find` treat as used, those
with a non-empty key, among the first `bucket_size` slots. -/
def stored (t : unordered_map) : List (key_t × value_t) :=
  (t.buckets.take t.bucket_size).filter (fun slot => decide (slot.1 ≠ []))

end cppref

/-! ## Supporting lemmas -/

namespace cppref

open unordered_map

theorem to_index_zero (h : Nat) : to_index h 0 = .error .modByZero := rfl

theorem to_index_pos (h : Nat) {n : Nat} (hn : 0 < n) :
    to_index h n = .ok ((h >>> 7) % n) := by
  have hne : n ≠ 0 := Nat.pos_iff_ne_zero.mp hn
  simp [to_index, hne]

theorem insert_impl_size_zero (fuel : Nat) (key : key_t) (value : value_t)
    (ctrl : Option (List Nat)) (buckets : List (key_t × value_t)) :
    insert_impl fuel key value ctrl buckets 0 = .error .modByZero := rfl

/-- A value returned by `insert_impl` comes from a table of positive size. -/
theorem insert_impl_ok_size {fuel : Nat} {key : key_t} {value : value_t}
    {ctrl : Option (List Nat)} {buckets : List (key_t × value_t)} {n : Nat} {b : Bool}
    (h : insert_impl fuel key value ctrl buckets n = .ok b) : 0 < n := by
  rcases Nat.eq_zero_or_pos n with h0 | h0
  · subst h0
    rw [insert_impl_size_zero] at h
    cases h
  · exact h0

/-- What `rehash` returns: every slot of the new array is the value-initialised
pair, whatever the old array held; `ctrl` and `count` are the old ones. -/
theorem rehash_ok {fuel : Nat} {t t1 : unordered_map} {n : Nat}
    (h : t.rehash fuel n = .ok t1) :
    t1.buckets = List.replicate n ([], 0) ∧ t1.bucket_size = n ∧
      t1.ctrl = t.ctrl ∧ t1.count = t.count := by
  simp only [rehash] at h
  split at h
  · cases h
  · cases h
    exact ⟨rfl, rfl, rfl, rfl⟩

/-- What `insert` returns.  The control bytes are those of the argument.  The
slots are those of the argument when the load-factor test fails, and
`2 * bucket_size` value-initialised pairs when it holds: in both cases no slot
receives the inserted pair.  The count grows by one exactly when `insert_impl`
returned `true`, its branch for a key that is already stored. -/
theorem insert_ok {fuel : Nat} {t t1 : unordered_map} {kv : key_t × value_t}
    (h : t.insert fuel kv = .ok t1) :
    t1.ctrl = t.ctrl ∧
    t1.bucket_size = (if over_load_factor t.count t.bucket_size
      then 2 * t.bucket_size else t.bucket_size) ∧
    t1.buckets = (if over_load_factor t.count t.bucket_size
      then List.replicate (2 * t.bucket_size) ([], 0) else t.buckets) ∧
    ∃ updated : Bool,
      insert_impl fuel kv.1 kv.2 t1.ctrl t1.buckets t1.bucket_size = .ok updated ∧
      t1.count = t.count + (if updated then 1 else 0) := by
  have hshift : t.bucket_size <<< 1 = 2 * t.bucket_size := by
    rw [Nat.shiftLeft_eq]; omega
  unfold unordered_map.insert at h
  cases hov : over_load_factor t.count t.bucket_size
  · rw [hov] at h
    simp only [Bool.false_eq_true, if_false] at h
    cases himpl : insert_impl fuel kv.1 kv.2 t.ctrl t.buckets t.bucket_size with
    | error e => rw [himpl] at h; cases h
    | ok updated =>
      rw [himpl] at h
      cases h
      exact ⟨rfl, by simp, by simp, updated, himpl, rfl⟩
  · rw [hov] at h
    simp only [if_true] at h
    cases hre : t.rehash fuel (t.bucket_size <<< 1) with
    | error e => rw [hre] at h; cases h
    | ok t2 =>
      rw [hre] at h
      dsimp only at h
      obtain ⟨hb, hs, hc, hn⟩ := rehash_ok hre
      cases himpl : insert_impl fuel kv.1 kv.2 t2.ctrl t2.buckets t2.bucket_size with
      | error e => rw [himpl] at h; cases h
      | ok updated =>
        rw [himpl] at h
        cases h
        refine ⟨hc, by simpa [hshift] using hs, by simpa [hshift] using hb,
          updated, himpl, ?_⟩
        simp [hn]

/-- With `bucket_size = 0` every `insert` computes `(hash >> 7) % 0`. -/
theorem insert_size_zero (fuel : Nat) (t : unordered_map) (kv : key_t × value_t)
    (h0 : t.bucket_size = 0) : t.insert fuel kv = .error .modByZero := by
  unfold unordered_map.insert
  cases hov : over_load_factor t.count t.bucket_size
  · simp only [Bool.false_eq_true, if_false, h0, insert_impl_size_zero]
  · simp only [if_true, rehash, h0, rehash_loop, Nat.zero_shiftLeft,
      insert_impl_size_zero]

/-- With `bucket_size = 0` every `find` computes `(hash >> 7) % 0`. -/
theorem find_size_zero (fuel : Nat) (t : unordered_map) (key : key_t)
    (h0 : t.bucket_size = 0) : t.find fuel key = .error .modByZero := by
  unfold find
  rw [h0]
  rfl

/-- No `insert` call on the freshly constructed table returns, so the only
table that `insert` calls produce from it is that table itself. -/
theorem reachable_iff_init (t : unordered_map) : Reachable t ↔ t = init := by
  constructor
  · intro h
    induction h with
    | init => rfl
    | insert fuel kv _ hstep ih =>
      subst ih
      rw [insert_size_zero fuel init kv rfl] at hstep
      cases hstep
  · intro h
    subst h
    exact Reachable.init

/-- A run of at least one `insert` on a table with `bucket_size = 0` stops at
its first call. -/
theorem insert_all_size_zero (fuel : Nat) (t : unordered_map) (kv : key_t × value_t)
    (rest : List (key_t × value_t)) (h0 : t.bucket_size = 0) :
    t.insert_all fuel (kv :: rest) = .error .modByZero := by
  simp only [insert_all, insert_size_zero fuel t kv h0]

/-- The result of `find` depends on the slots and on `bucket_size` only: it
reads no control byte. -/
theorem find_congr (fuel : Nat) (t t1 : unordered_map) (key : key_t)
    (hb : t1.buckets = t.buckets) (hs : t1.bucket_size = t.bucket_size) :
    t1.find fuel key = t.find fuel key := by
  unfold find
  rw [hb, hs]

/-- On an array of value-initialised pairs `find` reports a non-empty key
absent at the first slot it looks at. -/
theorem find_blank (fuel : Nat) (t : unordered_map) (key : key_t) (hk : key ≠ [])
    (hpos : 0 < t.bucket_size)
    (hb : t.buckets = List.replicate t.bucket_size ([], 0)) :
    t.find (fuel + 1) key = .ok none := by
  have hlt : (hash key >>> 7) % t.bucket_size < t.bucket_size := Nat.mod_lt _ hpos
  have hget : (List.replicate t.bucket_size (([], 0) : key_t × value_t))[
      (hash key >>> 7) % t.bucket_size]? = some ([], 0) := by
    rw [List.getElem?_eq_getElem (by simpa using hlt)]
    simp
  have hne : ¬ (([] : key_t) = key) := fun h => hk h.symm
  simp only [find, to_index_pos _ hpos, find_loop, hb, hget, hne, if_false, if_true]

/-- An `insert` that returns does not make its key retrievable: a non-empty
key that `find` reports absent before the call is reported absent after it,
with or without growth. -/
theorem insert_keeps_absent {fuel : Nat} {t t1 : unordered_map} {k : key_t} {v : value_t}
    (hk : k ≠ []) (hf : t.find fuel k = .ok none) (h : t.insert fuel (k, v) = .ok t1) :
    t1.find fuel k = .ok none := by
  obtain ⟨_, hs, hb, updated, himpl, _⟩ := insert_ok h
  cases hov : over_load_factor t.count t.bucket_size
  · rw [hov] at hs hb
    simp only [Bool.false_eq_true, if_false] at hs hb
    rw [find_congr fuel t t1 k hb hs]
    exact hf
  · rw [hov] at hs hb
    simp only [if_true] at hs hb
    have hpos : 0 < t1.bucket_size := insert_impl_ok_size himpl
    cases fuel with
    | zero =>
      simp only [find] at hf
      split at hf
      · cases hf
      · simp [find_loop] at hf
    | succ n =>
      apply find_blank n t1 k hk hpos
      rw [hb, hs]

/-- The lemmas `insert_ok` and `insert_keeps_absent` apply to tables in which
`insert` returns.  One such table, which the constructor does not produce, has
`bucket_size = default_table_size`, ten value-initialised slots and ten
`KeyEmpty` control bytes: there `insert(("foo", 2))` returns the table
unchanged, and `find("foo")` is the empty optional before and after. -/
theorem insert_stores_nothing_when_sized :
    (unordered_map.mk (List.replicate 10 ([], 0)) (some (List.replicate 10 128)) 10 0).insert
        1 (str "foo", 2)
      = .ok (unordered_map.mk (List.replicate 10 ([], 0)) (some (List.replicate 10 128)) 10 0) ∧
    (unordered_map.mk (List.replicate 10 ([], 0)) (some (List.replicate 10 128)) 10 0).find
        1 (str "foo") = .ok none :=
  ⟨rfl, rfl⟩

/-! ### The checksum -/

/-- The accumulators of `adler32` stay below `MOD_ADLER`, and on such
accumulators one turn of its loop is the turn of the specification: the
32-bit sums do not wrap. -/
theorem adler32_step_eq (ab : Nat × Nat) (byte : Byte)
    (ha : ab.1 < 65521) (hb : ab.2 < 65521) :
    adler32_step ab byte
        = ((ab.1 + byte.val) % 65521, (ab.2 + (ab.1 + byte.val) % 65521) % 65521) ∧
      (adler32_step ab byte).1 < 65521 ∧ (adler32_step ab byte).2 < 65521 := by
  have hbyte : byte.val < 256 := byte.isLt
  have h1 : (ab.1 + byte.val) % 2 ^ 32 = ab.1 + byte.val :=
    Nat.mod_eq_of_lt (by norm_num; omega)
  have hlt : (ab.1 + byte.val) % 65521 < 65521 := Nat.mod_lt _ (by norm_num)
  have h2 : (ab.2 + (ab.1 + byte.val) % 65521) % 2 ^ 32
      = ab.2 + (ab.1 + byte.val) % 65521 :=
    Nat.mod_eq_of_lt (by norm_num; omega)
  have hstep : adler32_step ab byte
      = ((ab.1 + byte.val) % 65521, (ab.2 + (ab.1 + byte.val) % 65521) % 65521) := by
    simp only [adler32_step, wrap32, MOD_ADLER, h1, h2]
  rw [hstep]
  exact ⟨rfl, hlt, Nat.mod_lt _ (by norm_num)⟩

/-- The loop of `adler32` computes the sums of the specification, from any
accumulators below `MOD_ADLER`, and leaves them below `MOD_ADLER`. -/
theorem adler32_fold_eq (bytes : List Byte) :
    ∀ ab : Nat × Nat, ab.1 < 65521 → ab.2 < 65521 →
      bytes.foldl adler32_step ab
          = bytes.foldl (fun ab byte =>
              ((ab.1 + byte.val) % 65521, (ab.2 + (ab.1 + byte.val) % 65521) % 65521)) ab ∧
        (bytes.foldl adler32_step ab).1 < 65521 ∧
        (bytes.foldl adler32_step ab).2 < 65521 := by
  induction bytes with
  | nil => intro ab ha hb; exact ⟨rfl, ha, hb⟩
  | cons byte rest ih =>
    intro ab ha hb
    obtain ⟨hstep, ha1, hb1⟩ := adler32_step_eq ab byte ha hb
    obtain ⟨hfold, ha2, hb2⟩ := ih (adler32_step ab byte) ha1 hb1
    simp only [List.foldl_cons]
    refine ⟨?_, ha2, hb2⟩
    rw [hfold, hstep]

/-- The shift `b << 16` of `adler32` does not leave 32 bits. -/
theorem wrap32_shift (b : Nat) (hb : b < 65521) : wrap32 (b <<< 16) = b <<< 16 := by
  unfold wrap32
  apply Nat.mod_eq_of_lt
  rw [Nat.shiftLeft_eq]
  norm_num
  omega

/-! ### The probe sequence -/

/-- The closed form of the probe sequence over a table of positive size. -/
theorem probe_eq (h : Nat) {n : Nat} (hn : 0 < n) (j : Nat) :
    probe h n j = .ok (((h >>> 7) + j) % n) := by
  have hne : n ≠ 0 := Nat.pos_iff_ne_zero.mp hn
  induction j with
  | zero => simp [probe, to_index, hne]
  | succ j ih =>
    simp only [probe, ih, linear_probe_next, hne, if_false]
    rw [Nat.mod_add_mod, Nat.add_assoc]

/-- Over a table of size zero no position of the probe sequence exists. -/
theorem probe_zero (h j : Nat) : probe h 0 j = .error .modByZero := by
  induction j with
  | zero => rfl
  | succ j ih => simp only [probe, ih]

/-! ### Growth -/

/-- After an `insert` that grew the table, `find` reports every non-empty key
absent, whatever the table held before. -/
theorem insert_growth_forgets {fuel : Nat} {t t1 : unordered_map} {kv : key_t × value_t}
    (hov : over_load_factor t.count t.bucket_size = true)
    (h : t.insert fuel kv = .ok t1) (key : key_t) (hk : key ≠ []) (n : Nat) :
    t1.find (n + 1) key = .ok none := by
  obtain ⟨_, hs, hb, updated, himpl, _⟩ := insert_ok h
  rw [hov] at hs hb
  simp only [if_true] at hs hb
  apply find_blank n t1 key hk (insert_impl_ok_size himpl)
  rw [hb, hs]

/-- Whatever `rehash` returns holds no pair: every slot of the new array has
the empty key. -/
theorem rehash_stored {fuel : Nat} {t t1 : unordered_map} {n : Nat}
    (h : t.rehash fuel n = .ok t1) : stored t1 = [] := by
  obtain ⟨hb, _, _, _⟩ := rehash_ok h
  unfold stored
  rw [hb, List.filter_eq_nil_iff]
  intro slot hmem
  have hslot := List.eq_of_mem_replicate (List.mem_of_mem_take hmem)
  simp [hslot]

/-! ### Termination of the probe loops where a stopping slot exists -/

/-- The loop of `insert_impl` returns within `d + 1` steps from a position
that is `d` probe steps before a `KeyEmpty` control byte, over arrays that
have `size` elements at least. -/
theorem insert_impl_loop_returns (key : key_t) (value : value_t) (metadata : Nat)
    (bytes : List Nat) (buckets : List (key_t × value_t)) {size i : Nat}
    (hc : size ≤ bytes.length) (hb : size ≤ buckets.length)
    (hempty : bytes[i]? = some Control.KeyEmpty.toNat) :
    ∀ d s fuel, s < size → (s + d) % size = i → d < fuel →
      ∃ b, insert_impl_loop key value metadata (some bytes) buckets size fuel s = .ok b := by
  intro d
  induction d with
  | zero =>
    intro s fuel hs hd hf
    have hsi : s = i := by
      rw [Nat.add_zero, Nat.mod_eq_of_lt hs] at hd
      exact hd
    subst hsi
    obtain ⟨n, rfl⟩ := Nat.exists_eq_succ_of_ne_zero (Nat.pos_iff_ne_zero.mp hf)
    have hbk : buckets[s]? = some buckets[s] := List.getElem?_eq_getElem (by omega)
    simp only [insert_impl_loop, hempty, hbk]
    split_ifs
    · exact ⟨true, rfl⟩
    · exact ⟨false, rfl⟩
  | succ d ih =>
    intro s fuel hs hd hf
    obtain ⟨n, rfl⟩ := Nat.exists_eq_succ_of_ne_zero (by omega : fuel ≠ 0)
    have hne : size ≠ 0 := by omega
    have hst : bytes[s]? = some bytes[s] := List.getElem?_eq_getElem (by omega)
    have hbk : buckets[s]? = some buckets[s] := List.getElem?_eq_getElem (by omega)
    simp only [insert_impl_loop, hst, hbk]
    split_ifs
    · exact ⟨true, rfl⟩
    · exact ⟨false, rfl⟩
    · simp only [linear_probe_next, hne, if_false]
      apply ih ((s + 1) % size) n (Nat.mod_lt _ (by omega))
      · rw [Nat.mod_add_mod, Nat.add_assoc, Nat.add_comm 1 d]
        exact hd
      · omega

/-- The function `insert_impl` returns, with fuel `bucket_size`, on arrays of
`bucket_size` elements at least one of whose control bytes is `KeyEmpty`. -/
theorem insert_impl_returns (key : key_t) (value : value_t)
    (bytes : List Nat) (buckets : List (key_t × value_t)) {size i : Nat}
    (hc : size ≤ bytes.length) (hb : size ≤ buckets.length) (hi : i < size)
    (hempty : bytes[i]? = some Control.KeyEmpty.toNat) :
    ∃ b, insert_impl size key value (some bytes) buckets size = .ok b := by
  have hpos : 0 < size := by omega
  have hs : (hash key >>> 7) % size < size := Nat.mod_lt _ hpos
  simp only [insert_impl, to_index_pos _ hpos]
  apply insert_impl_loop_returns key value _ bytes buckets hc hb hempty
    ((i + size - (hash key >>> 7) % size) % size) _ size hs
  · rw [Nat.add_mod_mod]
    have hsum : (hash key >>> 7) % size + (i + size - (hash key >>> 7) % size) = i + size := by
      omega
    rw [hsum, Nat.add_mod_right, Nat.mod_eq_of_lt hi]
  · exact Nat.mod_lt _ hpos

/-- The loop of `find` returns within `d + 1` steps from a position that is
`d` probe steps before a slot whose key is the empty string. -/
theorem find_loop_returns (key : key_t) (buckets : List (key_t × value_t)) {size i : Nat}
    (hb : size ≤ buckets.length) {value : value_t}
    (hblank : buckets[i]? = some ([], value)) :
    ∀ d s fuel, s < size → (s + d) % size = i → d < fuel →
      ∃ r, find_loop key buckets size fuel s = .ok r := by
  intro d
  induction d with
  | zero =>
    intro s fuel hs hd hf
    have hsi : s = i := by
      rw [Nat.add_zero, Nat.mod_eq_of_lt hs] at hd
      exact hd
    subst hsi
    obtain ⟨n, rfl⟩ := Nat.exists_eq_succ_of_ne_zero (Nat.pos_iff_ne_zero.mp hf)
    simp only [find_loop, hblank]
    split_ifs
    · exact ⟨_, rfl⟩
    · exact ⟨_, rfl⟩
  | succ d ih =>
    intro s fuel hs hd hf
    obtain ⟨n, rfl⟩ := Nat.exists_eq_succ_of_ne_zero (by omega : fuel ≠ 0)
    have hne : size ≠ 0 := by omega
    have hbk : buckets[s]? = some buckets[s] := List.getElem?_eq_getElem (by omega)
    simp only [find_loop, hbk]
    split_ifs
    · exact ⟨_, rfl⟩
    · exact ⟨_, rfl⟩
    · simp only [linear_probe_next, hne, if_false]
      apply ih ((s + 1) % size) n (Nat.mod_lt _ (by omega))
      · rw [Nat.mod_add_mod, Nat.add_assoc, Nat.add_comm 1 d]
        exact hd
      · omega

/-! ### The freshly constructed table -/

/-- A table of capacity ten that holds `("foo", 2)` in slot
`6 = to_index(hash("foo"), 10)` with control byte
`69 = to_metadata(hash("foo"))`, all other control bytes `KeyEmpty`:
`rehash(20)` returns twenty value-initialised slots and the old ten control
bytes, so the pair is not carried over. -/
theorem rehash_loses_pair_when_filled :
    to_index (hash (str "foo")) 10 = .ok 6 ∧ to_metadata (hash (str "foo")) = 69 ∧
    stored (unordered_map.mk ((List.replicate 10 ([], 0)).set 6 (str "foo", 2))
      (some ((List.replicate 10 128).set 6 69)) 10 1) = [(str "foo", 2)] ∧
    (unordered_map.mk ((List.replicate 10 ([], 0)).set 6 (str "foo", 2))
      (some ((List.replicate 10 128).set 6 69)) 10 1).rehash 2 20
      = .ok (unordered_map.mk (List.replicate 20 ([], 0))
          (some ((List.replicate 10 128).set 6 69)) 20 1) ∧
    stored (unordered_map.mk (List.replicate 20 ([], 0))
      (some ((List.replicate 10 128).set 6 69)) 20 1) = [] :=
  ⟨rfl, rfl, rfl, rfl, rfl⟩

/-- On a table of capacity ten with ten value-initialised slots and ten
`KeyEmpty` control bytes `find("")` returns the value `0` of the first slot it
looks at, and the lookup of the header comment returns absent. -/
theorem find_empty_key_when_sized :
    (unordered_map.mk (List.replicate 10 ([], 0)) (some (List.replicate 10 128)) 10 0).find
        1 [] = .ok (some 0) ∧
    documented_lookup 1
        (unordered_map.mk (List.replicate 10 ([], 0)) (some (List.replicate 10 128)) 10 0)
        [] = .ok none :=
  ⟨rfl, rfl⟩

/-- An `insert` that returns without growth leaves the result of `find`
unchanged for every key, the inserted one included. -/
theorem insert_frame_without_growth {fuel : Nat} {t t1 : unordered_map}
    {kv : key_t × value_t} (hov : over_load_factor t.count t.bucket_size = false)
    (h : t.insert fuel kv = .ok t1) (key : key_t) :
    t1.find fuel key = t.find fuel key := by
  obtain ⟨_, hs, hb, _⟩ := insert_ok h
  rw [hov] at hs hb
  simp only [Bool.false_eq_true, if_false] at hs hb
  exact find_congr fuel t t1 key hb hs

end cppref

/-! ## The claims -/

namespace cppref

open unordered_map

/-- C1 (round trip), evaluated on the freshly constructed table: for every key
`k` and value `v`, `insert((k, v))` followed by `find(k)` does not return `v`;
the `insert` call already computes `(hash >> 7) % bucket_size` with
`bucket_size = 0`. -/
theorem C1_round_trip_on_fresh_table (fuel : Nat) (k : key_t) (v : value_t) :
    (init.insert fuel (k, v) >>= fun t => t.find fuel k) = .error .modByZero := rfl

/-- C2 (update semantics), evaluated on the freshly constructed table: for
every key `k` and values `v1`, `v2`, the run `insert((k, v1))`,
`insert((k, v2))`, `find(k)` stops in the first call with a modulo by zero, so
`find(k)` does not return `v2`. -/
theorem C2_update_on_fresh_table (fuel : Nat) (k : key_t) (v1 v2 : value_t) :
    (init.insert_all fuel [(k, v1), (k, v2)] >>= fun t => t.find fuel k)
      = .error .modByZero := rfl

/-- C3 (absence), evaluated after the empty sequence of inserts: `find(k)` on
the freshly constructed table is not the absent result, for any key `k`; it
computes `(hash >> 7) % bucket_size` with `bucket_size = 0`. -/
theorem C3_find_on_fresh_table (fuel : Nat) (k : key_t) :
    init.find fuel k = .error .modByZero ∧ init.find fuel k ≠ .ok none :=
  ⟨rfl, fun h => by cases h⟩

/-- C4 (growth preserves the mapping), evaluated on the twelve pairs of
`create_dummy_data` inserted by `main`: the loop of `main` stops in its first
`insert` with a modulo by zero, so no key of the list is found afterwards. -/
theorem C4_main_loop_on_fresh_table (fuel : Nat) :
    main_cache fuel = .error .modByZero ∧
      ∀ kv ∈ create_dummy_data,
        (main_cache fuel >>= fun t => t.find fuel kv.1) ≠ .ok (some kv.2) :=
  ⟨rfl, fun _ _ h => by cases h⟩

/-- C5 (empty key), evaluated on the freshly constructed table: for every
value `v` and every list of pairs, `insert(("", v))` followed by the inserts of
the list and `find("")` stops in the first call with a modulo by zero, so
`find("")` does not return `v`. -/
theorem C5_empty_key_on_fresh_table (fuel : Nat) (v : value_t)
    (kvs : List (key_t × value_t)) :
    (init.insert_all fuel (([], v) :: kvs) >>= fun t => t.find fuel [])
      = .error .modByZero := rfl

/-- C6 (idempotence), evaluated on the freshly constructed table: for every
key `k`, value `v` and `n`, the run of `n + 1` calls `insert((k, v))` stops in
its first call with a modulo by zero, so it yields no table in which `find(k)`
returns `v`. -/
theorem C6_repeated_insert_on_fresh_table (fuel : Nat) (k : key_t) (v : value_t) (n : Nat) :
    init.insert_all fuel (List.replicate (n + 1) (k, v)) = .error .modByZero := rfl

/-- C7 (construction), the state the constructor leaves: ten slots and
`count = 0`, but `bucket_size = 0`, which is not `default_table_size`, and a
null `ctrl`, so there is no control plane of length ten. -/
theorem C7_constructed_state :
    init.buckets.length = default_table_size ∧ init.count = 0 ∧
      init.bucket_size = 0 ∧ init.bucket_size ≠ default_table_size ∧
      init.ctrl = none := by
  refine ⟨rfl, rfl, rfl, ?_, rfl⟩
  decide

/-- C8 (growth rule), evaluated on the only reachable table, the freshly
constructed one with `count = 0` and `bucket_size = 0`: the load-factor test
is false there, and `insert` then leaves no capacity at all, it stops with a
modulo by zero for every pair. -/
theorem C8_growth_rule_on_fresh_table (fuel : Nat) (kv : key_t × value_t) :
    over_load_factor init.count init.bucket_size = false ∧
      Except.map unordered_map.bucket_size (init.insert fuel kv) = .error .modByZero :=
  ⟨rfl, rfl⟩

/-- C9 (occupancy accounting), evaluated on the freshly constructed table:
the call `insert_impl(k, v, buckets, bucket_size)` that `insert` makes there
stops with a modulo by zero for every key and value, before any slot or
control byte is looked at, so nothing is written and `count` is not
increased. -/
theorem C9_insert_impl_on_fresh_table (fuel : Nat) (k : key_t) (v : value_t) :
    insert_impl fuel k v init.ctrl init.buckets init.bucket_size = .error .modByZero ∧
      ∀ t1, init.insert fuel (k, v) ≠ .ok t1 :=
  ⟨rfl, fun _ h => by cases h⟩

/-- C10 (concrete scenario): the inserts of `("foo", 2)`, `("bar", 4)`,
`("spam", 5)` into the freshly constructed table stop in the first call with a
modulo by zero, and `find("baz")` on the freshly constructed table does so
too, instead of returning absent. -/
theorem C10_scenario_foo_bar_spam (fuel : Nat) :
    init.insert_all fuel [(str "foo", 2), (str "bar", 4), (str "spam", 5)]
        = .error .modByZero ∧
      init.find fuel (str "baz") = .error .modByZero :=
  ⟨rfl, rfl⟩

/-- C11 (twenty-key scenario), evaluated on the freshly constructed table: for
every list of twenty pairs the run of inserts stops with a modulo by zero, so
there is no growth event, no final capacity and no table in which the keys
could be found. -/
theorem C11_twenty_keys_on_fresh_table (fuel : Nat) (kvs : List (key_t × value_t))
    (hlen : kvs.length = 20) :
    init.insert_all fuel kvs = .error .modByZero ∧
      ∀ key, (init.insert_all fuel kvs >>= fun t => t.find fuel key) = .error .modByZero := by
  cases kvs with
  | nil => simp at hlen
  | cons kv rest =>
    have h := insert_all_size_zero fuel init kv rest rfl
    refine ⟨h, fun key => ?_⟩
    rw [h]
    rfl

/-- C11, at the twenty pairs `([i], i)` for `i` below twenty. -/
theorem C11_twenty_keys_witness :
    init.insert_all 32 ((List.range 20).map (fun i => ([Fin.ofNat i], (i : Int))))
        = .error .modByZero ∧
      ∀ key, (init.insert_all 32 ((List.range 20).map (fun i => ([Fin.ofNat i], (i : Int))))
        >>= fun t => t.find 32 key) = .error .modByZero :=
  C11_twenty_keys_on_fresh_table 32 _ rfl

/-- C12 (termination), evaluated on the freshly constructed table: for every
key and value, with no amount of fuel does the probe of `insert_impl` return
a result there, and with no amount of fuel does `find`; both stop with a
modulo by zero before the first slot is examined. -/
theorem C12_probes_on_fresh_table (k : key_t) (v : value_t) :
    (∀ fuel, insert_impl fuel k v init.ctrl init.buckets init.bucket_size
        = .error .modByZero) ∧
      (∀ fuel, init.find fuel k = .error .modByZero) ∧
      (∀ j, probe (hash k) init.bucket_size j = .error .modByZero) :=
  ⟨fun _ => rfl, fun _ => rfl, fun j => probe_zero (hash k) j⟩

/-- C13 (control/slot alignment), on every reachable table: `ctrl` is null, so
there is no control plane, and the slot storage has `default_table_size`
slots while the capacity `bucket_size` is zero; the lengths the claim equates
differ. -/
theorem C13_alignment_on_reachable (t : unordered_map) (h : Reachable t) :
    t.ctrl = none ∧ t.buckets.length = default_table_size ∧ t.bucket_size = 0 ∧
      t.buckets.length ≠ t.bucket_size := by
  rw [(reachable_iff_init t).mp h]
  refine ⟨rfl, rfl, rfl, ?_⟩
  decide

/-- C13, at the freshly constructed table. -/
theorem C13_alignment_witness :
    init.ctrl = none ∧ init.buckets.length = default_table_size ∧ init.bucket_size = 0 ∧
      init.buckets.length ≠ init.bucket_size :=
  C13_alignment_on_reachable init Reachable.init

/-- C16 (hash function): for every byte sequence `s`, `hash s = adler32 s`,
and `adler32 s` is `(b << 16) | a` for the sums `(a, b)` of the specification,
folded from `(1, 0)` with `a := (a + byte) mod 65521`,
`b := (b + a) mod 65521`; the hash of the empty sequence is `1`. -/
theorem C16_hash_is_adler32 (s : List Byte) :
    hash s = adler32 s ∧
      adler32 s = ((spec_sums s).2 <<< 16) ||| (spec_sums s).1 ∧
      adler32 s = spec_digest s ∧
      hash [] = 1 ∧ MOD_ADLER = 65521 := by
  obtain ⟨hfold, _, hb⟩ := adler32_fold_eq s (1, 0) (by norm_num) (by norm_num)
  have hdigest : adler32 s = ((spec_sums s).2 <<< 16) ||| (spec_sums s).1 := by
    unfold adler32
    simp only []
    rw [wrap32_shift _ hb, hfold]
    rfl
  exact ⟨rfl, hdigest, hdigest, rfl, rfl⟩

/-- C17 (the fragment never aliases a reserved control value): for every hash
`h`, `to_metadata h = h & 0x7F` is below `128`, hence different from
`KeyEmpty` (`0x80`), `KeyDelete` (`0xFE`) and `KeySentinel` (`0xFF`). -/
theorem C17_metadata_not_reserved (h : Nat) :
    to_metadata h = h &&& 0x7F ∧ to_metadata h < 128 ∧
      to_metadata h ≠ Control.KeyEmpty.toNat ∧
      to_metadata h ≠ Control.KeyDelete.toNat ∧
      to_metadata h ≠ Control.KeySentinel.toNat ∧
      Control.KeyEmpty.toNat = 0x80 ∧ Control.KeyDelete.toNat = 0xFE ∧
      Control.KeySentinel.toNat = 0xFF := by
  have hlt : to_metadata h < 128 := by
    unfold to_metadata
    exact Nat.lt_succ_of_le Nat.and_le_right
  refine ⟨rfl, hlt, ?_, ?_, ?_, rfl, rfl, rfl⟩ <;>
    (intro heq; rw [heq] at hlt; simp [Control.toNat] at hlt)

/-- C19 (no division or modulo by zero): the freshly constructed table has
`bucket_size = 0`, the divisor of the load-factor test of `insert`, and there
`to_index` and `linear_probe_next` are a modulo by zero for every hash and
every index. -/
theorem C19_zero_divisor_on_fresh_table :
    Reachable init ∧ init.bucket_size = 0 ∧
      (∀ h : Nat, to_index h init.bucket_size = .error .modByZero) ∧
      (∀ index : Nat, linear_probe_next index init.bucket_size = .error .modByZero) :=
  ⟨Reachable.init, rfl, fun _ => rfl, fun _ => rfl⟩

/-- C20 (the linear probe covers the table): for every `N > 0` and hash `h`,
the sequence `i_0 = to_index(h, N) = (h >> 7) mod N`,
`i_{j+1} = linear_probe_next(i_j, N) = (i_j + 1) mod N` is defined and stays
below `N`, its first `N` elements are pairwise distinct, and `i_N = i_0`. -/
theorem C20_linear_probe_covers (N h : Nat) (hN : 0 < N) :
    probe h N 0 = .ok ((h >>> 7) % N) ∧
      (∀ j, ∃ i, probe h N j = .ok i ∧ i < N ∧ probe h N (j + 1) = .ok ((i + 1) % N)) ∧
      (∀ j j1, j < N → j1 < N → probe h N j = probe h N j1 → j = j1) ∧
      probe h N N = probe h N 0 := by
  refine ⟨by simpa using probe_eq h hN 0, fun j => ?_, fun j j1 hj hj1 heq => ?_, ?_⟩
  · refine ⟨((h >>> 7) + j) % N, probe_eq h hN j, Nat.mod_lt _ hN, ?_⟩
    rw [probe_eq h hN (j + 1), Nat.mod_add_mod, Nat.add_assoc]
  · rw [probe_eq h hN j, probe_eq h hN j1] at heq
    have hmod : (h >>> 7) + j ≡ (h >>> 7) + j1 [MOD N] := Except.ok.inj heq
    exact Nat.ModEq.eq_of_lt_of_lt (Nat.ModEq.add_left_cancel' _ hmod) hj hj1
  · rw [probe_eq h hN N, probe_eq h hN 0, Nat.add_mod_right, Nat.add_zero]

/-- C20, at a table of ten slots and the hash of `"foo"`. -/
theorem C20_linear_probe_witness :
    probe 42074437 10 0 = .ok ((42074437 >>> 7) % 10) ∧
      (∀ j, ∃ i, probe 42074437 10 j = .ok i ∧ i < 10 ∧
        probe 42074437 10 (j + 1) = .ok ((i + 1) % 10)) ∧
      (∀ j j1, j < 10 → j1 < 10 → probe 42074437 10 j = probe 42074437 10 j1 → j = j1) ∧
      probe 42074437 10 10 = probe 42074437 10 0 :=
  C20_linear_probe_covers 10 42074437 (by decide)

end cppref
